import Mathlib

/-!
Verification development for the keycloak-management repository.

The development shallowly embeds the step-orchestration engine and the
certificate backup / validation / restore logic:

* `src/core/orchestrator.py` — `StepOrchestrator.execute` (`coreExec`)
* `src/deployment/orchestrator.py` — `DeploymentOrchestrator.deploy` (`deployRun`)
* `src/security/ssl.py` — `CertificateManager`:
  `_validate_certificate` (`validateCertificate`),
  `_manage_backups` (`createBackup`),
  `_restore_backup` (`restoreBackup`),
  `check_completed` (`certCheckCompleted`),
  `execute` (`certExecute`)

Python callables that either return a boolean or raise are modelled by
`PyResult`; the external world a step touches (file existence, the result
of shelling out to certbot, the wall clock) is passed in explicitly.
-/

set_option autoImplicit false

namespace KeycloakManagement

/-- Result of calling a Python function that returns a `bool` or raises. -/
inductive PyResult where
  | ok (b : Bool)
  | exn
deriving DecidableEq, Repr

/-- A deployment step as the two orchestrators observe it: its name, the
`can_skip` / `can_cleanup` policy flags of `DeploymentStep.__init__`
(`src/depolyment/base.py`), the value `check_completed()` would return in
the current world, and the behaviour of its `execute()` call. -/
structure Step where
  name : String
  canSkip : Bool
  canCleanup : Bool
  checkCompleted : Bool
  exec : PyResult
deriving DecidableEq, Repr

/-- Per-step outcome, as logged by the orchestrators. -/
inductive Outcome where
  | skipped
  | succeeded
  | failed
  | errored
deriving DecidableEq, Repr

/-- One entry of a run trace: the step's position in the pipeline, its name,
and its outcome.  A step appears in the trace iff the orchestrator's loop
reached it. -/
structure Event where
  idx : Nat
  stepName : String
  out : Outcome
deriving DecidableEq, Repr

/-- An outcome in which the step's `execute()` was invoked. -/
def Outcome.invokesExec : Outcome → Bool
  | Outcome.skipped => false
  | _ => true

/-- Model of `StepOrchestrator.execute` (`src/core/orchestrator.py`, lines 49-64),
tracking the start index `i` of the remaining steps.  The loop never
consults `can_skip`/`check_completed`; it calls `step.execute()` on every
step, returns `False` on the first step that returns `False` or raises
(the `step_context` re-raises, the `except` around it returns `False`),
and otherwise continues.  The trailing installation-summary generation is
wrapped in `try/except` and never changes the returned boolean, so it is
not modelled. -/
def coreExecAux : List Step → Nat → Bool × List Event
  | [], _ => (true, [])
  | s :: rest, i =>
    match s.exec with
    | PyResult.ok true =>
      let r := coreExecAux rest (i + 1)
      (r.fst, Event.mk i s.name Outcome.succeeded :: r.snd)
    | PyResult.ok false => (false, [Event.mk i s.name Outcome.failed])
    | PyResult.exn => (false, [Event.mk i s.name Outcome.errored])

/-- Model of `StepOrchestrator.execute` on the full pipeline. -/
def coreExec (steps : List Step) : Bool × List Event :=
  coreExecAux steps 0

/-- Model of `DeploymentOrchestrator.deploy` (`src/deployment/orchestrator.py`,
lines 136-149), tracking the start index of the remaining steps.
Per step: if `can_skip and check_completed()`, log and `continue`;
otherwise run `execute()` inside `step_context`.  A `False` return makes
`deploy` return `False`; an exception is logged by `step_context`, cleanup
is attempted when `can_cleanup`, and the exception is re-raised out of
`deploy` (there is no surrounding `try`), modelled as `PyResult.exn`.
After the loop, `_generate_installation_summary()` runs outside any
`try`, so an exception there (`summaryExn`) also propagates. -/
def deployAux (summaryExn : Bool) : List Step → Nat → PyResult × List Event
  | [], _ => (if summaryExn then PyResult.exn else PyResult.ok true, [])
  | s :: rest, i =>
    if s.canSkip && s.checkCompleted then
      let r := deployAux summaryExn rest (i + 1)
      (r.fst, Event.mk i s.name Outcome.skipped :: r.snd)
    else
      match s.exec with
      | PyResult.ok true =>
        let r := deployAux summaryExn rest (i + 1)
        (r.fst, Event.mk i s.name Outcome.succeeded :: r.snd)
      | PyResult.ok false => (PyResult.ok false, [Event.mk i s.name Outcome.failed])
      | PyResult.exn => (PyResult.exn, [Event.mk i s.name Outcome.errored])

/-- Model of `DeploymentOrchestrator.deploy` on the full pipeline. -/
def deployRun (summaryExn : Bool) (steps : List Step) : PyResult × List Event :=
  deployAux summaryExn steps 0

/-- The trace an orchestrator produces for a run of consecutive successful
steps starting at pipeline index `i` (one `succeeded` event per step). -/
def okEvents : List Step → Nat → List Event
  | [], _ => []
  | s :: rest, i => Event.mk i s.name Outcome.succeeded :: okEvents rest (i + 1)

/-- The data `CertificateManager._validate_certificate` extracts from the
certificate artifact (the PEM file plus the adjacent private key):
the `notAfter` date (in whole days, matching the day granularity of the
Python `timedelta.days` comparison), the subject-alternative-name entries,
and the result of the `check_privatekey()` block — `none` when the key
pairs with the certificate, `some e` when that block raises with message
`e`. -/
structure ParsedCert where
  expiryDay : Int
  sanDomains : List String
  keyCheck : Option String
deriving DecidableEq, Repr

/-- Model of `CertificateManager._validate_certificate` (`src/security/ssl.py`,
lines 25-71).  `artifact` is `Except.error e` when loading/parsing the
certificate raises with message `e`.  Checks run in source order — parse,
expiry (`(expiry - datetime.now()).days <= min_days_valid`), SAN domain
match, private-key pairing — and the first failure returns
`(False, reason, expiry)`.  `nowDay` is the current clock reading
(`datetime.now()`), in days. -/
def validateCertificate (artifact : Except String ParsedCert) (domains : List String)
    (minDaysValid nowDay : Int) : Bool × Option String × Option Int :=
  match artifact with
  | Except.error e => (false, some (String.append "Certificate validation failed: " e), none)
  | Except.ok c =>
    if c.expiryDay - nowDay ≤ minDaysValid then
      (false,
        some (String.append "Certificate expires in less than "
          (String.append (toString minDaysValid) " days")),
        some c.expiryDay)
    else if !(domains.any fun d => c.sanDomains.contains d) then
      (false, some "Certificate domains don\x27t match configuration", some c.expiryDay)
    else
      match c.keyCheck with
      | some e => (false, some (String.append "Private key validation failed: " e), some c.expiryDay)
      | none => (true, none, some c.expiryDay)

/-- Predicate: `beginsWith pat l` holds when `pat` is an initial segment of `l`. -/
def beginsWith : List Char → List Char → Bool
  | [], _ => true
  | _ :: _, [] => false
  | p :: ps, c :: cs => p == c && beginsWith ps cs

/-- Predicate: `containsSub pat l` holds when `pat` occurs as a contiguous run inside `l`
(used to state "reason contains such-and-such substring"). -/
def containsSub (pat : List Char) : List Char → Bool
  | [] => beginsWith pat []
  | c :: cs => beginsWith pat (c :: cs) || containsSub pat cs

/-- Model of `CertificateManager.check_completed` (`src/security/ssl.py`,
lines 178-195): file presence of certificate and key, then
`_validate_certificate`, then `_verify_cert_chain` (whose boolean verdict
is abstracted as `chainValid`); any failed gate returns `False`. -/
def certCheckCompleted (certFileExists keyFileExists : Bool)
    (artifact : Except String ParsedCert) (domains : List String)
    (minDaysValid nowDay : Int) (chainValid : Bool) : Bool :=
  if !(certFileExists && keyFileExists) then false
  else if !(validateCertificate artifact domains minDaysValid nowDay).fst then false
  else if !chainValid then false
  else true

/-- One snapshot directory under the backup namespace
(`/opt/fawz/keycloak/certs/backup/<timestamp>`): its timestamp (the
directory name, sortable and strictly increasing across calls),
whether `fullchain.pem`/`privkey.pem` were copied into it
(`hasContent = false` for the empty directory left when the source files
were absent), and the validity verdict recorded in `backup_info.txt`. -/
structure BackupRec where
  timestamp : Nat
  hasContent : Bool
  isValid : Bool
deriving DecidableEq, Repr

/-- The eviction loop of `CertificateManager._manage_backups`
(`src/security/ssl.py`, lines 112-119): `while len(backups) >=
max_backups: backups.pop(0)` — drop the oldest (front of the
name-sorted listing) until the count is below the cap. -/
def evictWhile (maxB : Nat) : List BackupRec → List BackupRec
  | [] => []
  | x :: xs => if maxB ≤ xs.length + 1 then evictWhile maxB xs else x :: xs

/-- Model of `CertificateManager._manage_backups` (`src/security/ssl.py`,
lines 109-147).  The vault is the ascending (name-sorted) listing of the
namespace.  After eviction, a fresh timestamp directory is always created
(`mkdir`); only when both source files exist are the contents copied,
the validation verdict recorded, and the new path returned — otherwise
the function falls through and returns `None`, leaving the empty
directory behind. -/
def createBackup (maxB : Nat) (sourcePresent sourceValid : Bool) (t : Nat)
    (vault : List BackupRec) : List BackupRec × Option Nat :=
  let vault' := evictWhile maxB vault
  if sourcePresent then
    (vault' ++ [BackupRec.mk t true sourceValid], some t)
  else
    (vault' ++ [BackupRec.mk t false false], none)

/-- Iterate `_manage_backups` `n` times on an initially empty namespace;
the `i`-th call carries timestamp `i` (timestamps strictly increase), the
source files are present iff `present i`, and the source certificate is
valid iff `valid i`. -/
def runBackups (maxB : Nat) (present valid : Nat → Bool) (n : Nat) : List BackupRec :=
  (List.range n).foldl (fun v i => (createBackup maxB (present i) (valid i) i v).fst) []

/-- A filesystem write performed by a restore: the timestamp of the
snapshot whose `fullchain.pem`/`privkey.pem` were copied onto the live
certificate paths. -/
structure RestoreWrite where
  srcTimestamp : Nat
deriving DecidableEq, Repr

/-- Model of `CertificateManager._restore_backup` (`src/security/ssl.py`,
lines 149-176).  `specific = some t` models a caller-supplied
`specific_backup` path with timestamp `t`; the guard
`specific_backup and specific_backup.exists()` holds iff a record with
that timestamp is present in the vault, and otherwise the code falls back
to `sorted(self.backup_dir.glob(star), reverse=True)[0]` — the most
recent record — returning `False` when the namespace is empty.  The
chosen record's certificate is re-validated (`validNow`, the verdict of
`_validate_certificate` on that snapshot at restore time; an empty
snapshot has no `fullchain.pem`, so validation raises and the verdict is
false); only on success are the two files copied onto the live paths. -/
def restoreBackup (validNow : BackupRec → Bool) (specific : Option Nat)
    (vault : List BackupRec) : Bool × List RestoreWrite :=
  let chosen : Option BackupRec :=
    match specific with
    | some t =>
      match vault.find? (fun r => r.timestamp == t) with
      | some r => some r
      | none => vault.getLast?
    | none => vault.getLast?
  match chosen with
  | none => (false, [])
  | some r =>
    if validNow r then (true, [RestoreWrite.mk r.timestamp]) else (false, [])

/-- The external world `CertificateManager.execute` interacts with:
whether `check_completed()` already holds, the state of the live
certificate files when `_manage_backups` runs, the timestamp
`datetime.now()` assigns to the new snapshot, and the outcomes of the
`apt-get`/`certbot` invocations and of validating the freshly issued
certificate. -/
structure CertWorld where
  alreadyCompleted : Bool
  sourcePresent : Bool
  sourceValid : Bool
  backupTimestamp : Nat
  certbotInstallOk : Bool
  issuanceOk : Bool
  newCertValid : Bool
  newChainValid : Bool
deriving DecidableEq, Repr

/-- Model of `CertificateManager.execute` (`src/security/ssl.py`, lines 197-288).
Early-returns `True` when `check_completed()`; takes the pre-change
backup via `_manage_backups`; fails on certbot installation failure; on
issuance failure, new-certificate validation failure, or chain
verification failure, attempts `_restore_backup(backup_path)` when a
backup path was returned — the step's verdict is then the restore's
verdict — and returns `False` outright when `_manage_backups` returned
`None`.  On the all-success path (auto-renewal configuration included)
it returns `True`. -/
def certExecute (maxB : Nat) (validNow : BackupRec → Bool) (vault : List BackupRec)
    (w : CertWorld) : Bool × List RestoreWrite :=
  if w.alreadyCompleted then (true, [])
  else
    let b := createBackup maxB w.sourcePresent w.sourceValid w.backupTimestamp vault
    if !w.certbotInstallOk then (false, [])
    else if !w.issuanceOk then
      match b.snd with
      | some t => restoreBackup validNow (some t) b.fst
      | none => (false, [])
    else if !w.newCertValid then
      match b.snd with
      | some t => restoreBackup validNow (some t) b.fst
      | none => (false, [])
    else if !w.newChainValid then
      match b.snd with
      | some t => restoreBackup validNow (some t) b.fst
      | none => (false, [])
    else (true, [])

/-! ### Helper lemmas about the orchestrator traces -/

lemma okEvents_map_idx : ∀ (l : List Step) (i : Nat),
    (okEvents l i).map Event.idx = List.range' i l.length := by
  intro l
  induction l with
  | nil => intro i; rfl
  | cons s rest ih =>
    intro i
    simp [okEvents, List.range'_succ, ih (i + 1)]

lemma coreExecAux_ok_append (post : List Step) :
    ∀ (pre : List Step) (i : Nat), (∀ p ∈ pre, p.exec = PyResult.ok true) →
      coreExecAux (pre ++ post) i =
        ((coreExecAux post (i + pre.length)).fst,
          okEvents pre i ++ (coreExecAux post (i + pre.length)).snd) := by
  intro pre
  induction pre with
  | nil => intro i h; simp [okEvents]
  | cons s rest ih =>
    intro i h
    have hs : s.exec = PyResult.ok true := h s (by simp)
    have h' : ∀ p ∈ rest, p.exec = PyResult.ok true := fun p hp => h p (by simp [hp])
    have harith : i + 1 + rest.length = i + (rest.length + 1) := by omega
    simp only [List.cons_append, coreExecAux, hs, List.append_eq]
    rw [ih (i + 1) h']
    simp [okEvents, harith]

lemma deployAux_ok_append (se : Bool) (post : List Step) :
    ∀ (pre : List Step) (i : Nat),
      (∀ p ∈ pre, (p.canSkip && p.checkCompleted) = false ∧ p.exec = PyResult.ok true) →
      deployAux se (pre ++ post) i =
        ((deployAux se post (i + pre.length)).fst,
          okEvents pre i ++ (deployAux se post (i + pre.length)).snd) := by
  intro pre
  induction pre with
  | nil => intro i h; simp [okEvents]
  | cons s rest ih =>
    intro i h
    have hs := h s (by simp)
    have h' : ∀ p ∈ rest, (p.canSkip && p.checkCompleted) = false ∧ p.exec = PyResult.ok true :=
      fun p hp => h p (by simp [hp])
    have harith : i + 1 + rest.length = i + (rest.length + 1) := by omega
    simp only [List.cons_append, deployAux, hs.1, hs.2, List.append_eq, Bool.false_eq_true,
      if_false]
    rw [ih (i + 1) h']
    simp [okEvents, harith]

lemma range_succ_snoc (n : Nat) : List.range (n + 1) = List.range' 0 n ++ [n] := by
  rw [List.range_eq_range', List.range'_concat]
  simp

/-- C1 (amended).  Both orchestrators run the steps in insertion order and
halt at the first failing step without invoking `execute` on any later
step.  `StepOrchestrator.execute` returns `False` whether the step
returned `False` or raised; `DeploymentOrchestrator.deploy` returns
`False` when the step returned `False` but propagates the exception when
the step raised.  The trace in both cases covers exactly the pipeline
indices `0 .. pre.length`, in order. -/
theorem C1_halt_on_first_failure
    (pre post : List Step) (s : Step) (summaryExn : Bool)
    (hpre : ∀ p ∈ pre, p.exec = PyResult.ok true)
    (hpreNoskip : ∀ p ∈ pre, (p.canSkip && p.checkCompleted) = false)
    (hsNoskip : (s.canSkip && s.checkCompleted) = false)
    (hfail : s.exec = PyResult.ok false ∨ s.exec = PyResult.exn) :
    (coreExec (pre ++ s :: post)).fst = false ∧
    (coreExec (pre ++ s :: post)).snd.map Event.idx = List.range (pre.length + 1) ∧
    (s.exec = PyResult.ok false →
      (deployRun summaryExn (pre ++ s :: post)).fst = PyResult.ok false) ∧
    (s.exec = PyResult.exn →
      (deployRun summaryExn (pre ++ s :: post)).fst = PyResult.exn) ∧
    (deployRun summaryExn (pre ++ s :: post)).snd.map Event.idx = List.range (pre.length + 1) := by
  have hcore := coreExecAux_ok_append (s :: post) pre 0 hpre
  have hdep := deployAux_ok_append summaryExn (s :: post) pre 0
    (fun p hp => ⟨hpreNoskip p hp, hpre p hp⟩)
  simp only [Nat.zero_add] at hcore hdep
  have hrange := range_succ_snoc pre.length
  rcases hfail with hf | hf <;>
    simp [coreExec, deployRun, hcore, hdep, coreExecAux, deployAux, hsNoskip, hf,
      okEvents_map_idx, hrange, hf]

/-- C1 counterexample to the claim as stated: when a step's `execute`
raises, `DeploymentOrchestrator.deploy` does not return `False` — the
exception propagates out of `deploy` (after the `step_context` cleanup
attempt). -/
theorem C1_counterexample :
    (deployRun false [Step.mk "raiser" false false false PyResult.exn]).fst ≠
      PyResult.ok false := by
  decide

/-- Witness for `C1_halt_on_first_failure` at a concrete three-step
pipeline [A succeeds, B fails, C would succeed]. -/
theorem C1_halt_on_first_failure_witness :
    (coreExec ([Step.mk "A" false false false (PyResult.ok true)] ++
      Step.mk "B" false false false (PyResult.ok false) ::
        [Step.mk "C" false false false (PyResult.ok true)])).fst = false ∧
    (coreExec ([Step.mk "A" false false false (PyResult.ok true)] ++
      Step.mk "B" false false false (PyResult.ok false) ::
        [Step.mk "C" false false false (PyResult.ok true)])).snd.map Event.idx =
      List.range ([Step.mk "A" false false false (PyResult.ok true)].length + 1) ∧
    ((Step.mk "B" false false false (PyResult.ok false)).exec = PyResult.ok false →
      (deployRun false ([Step.mk "A" false false false (PyResult.ok true)] ++
        Step.mk "B" false false false (PyResult.ok false) ::
          [Step.mk "C" false false false (PyResult.ok true)])).fst = PyResult.ok false) ∧
    ((Step.mk "B" false false false (PyResult.ok false)).exec = PyResult.exn →
      (deployRun false ([Step.mk "A" false false false (PyResult.ok true)] ++
        Step.mk "B" false false false (PyResult.ok false) ::
          [Step.mk "C" false false false (PyResult.ok true)])).fst = PyResult.exn) ∧
    (deployRun false ([Step.mk "A" false false false (PyResult.ok true)] ++
      Step.mk "B" false false false (PyResult.ok false) ::
        [Step.mk "C" false false false (PyResult.ok true)])).snd.map Event.idx =
      List.range ([Step.mk "A" false false false (PyResult.ok true)].length + 1) :=
  C1_halt_on_first_failure
    [Step.mk "A" false false false (PyResult.ok true)]
    [Step.mk "C" false false false (PyResult.ok true)]
    (Step.mk "B" false false false (PyResult.ok false)) false
    (by decide) (by decide) (by decide) (Or.inl rfl)

lemma deployAux_mem (se : Bool) :
    ∀ (l : List Step) (i : Nat) (e : Event), e ∈ (deployAux se l i).snd →
      i ≤ e.idx ∧ ∃ s, l.get? (e.idx - i) = some s ∧ e.stepName = s.name ∧
        (e.out = Outcome.skipped ↔ (s.canSkip && s.checkCompleted) = true) := by
  intro l
  induction l with
  | nil => intro i e he; simp [deployAux] at he
  | cons s rest ih =>
    intro i e he
    have hstep : e ∈ (deployAux se rest (i + 1)).snd →
        i ≤ e.idx ∧ ∃ s', (s :: rest).get? (e.idx - i) = some s' ∧ e.stepName = s'.name ∧
          (e.out = Outcome.skipped ↔ (s'.canSkip && s'.checkCompleted) = true) := by
      intro h
      obtain ⟨hle, s', hget, hname, hout⟩ := ih (i + 1) e h
      refine ⟨by omega, s', ?_, hname, hout⟩
      have hidx : e.idx - i = (e.idx - (i + 1)) + 1 := by omega
      rw [hidx, List.get?_cons_succ]
      exact hget
    by_cases hsk : (s.canSkip && s.checkCompleted) = true
    · simp only [deployAux, hsk, if_true] at he
      rcases List.mem_cons.mp he with h | h
      · subst h
        exact ⟨Nat.le_refl i, s, by simp, rfl, by simp [hsk]⟩
      · exact hstep h
    · rw [Bool.not_eq_true] at hsk
      simp only [deployAux, hsk, Bool.false_eq_true, if_false] at he
      cases hex : s.exec with
      | ok b =>
        rw [hex] at he
        cases b
        · simp only [List.mem_singleton] at he
          subst he
          exact ⟨Nat.le_refl i, s, by simp, rfl, by simp [hsk]⟩
        · rcases List.mem_cons.mp he with h | h
          · subst h
            exact ⟨Nat.le_refl i, s, by simp, rfl, by simp [hsk]⟩
          · exact hstep h
      | exn =>
        rw [hex] at he
        simp only [List.mem_singleton] at he
        subst he
        exact ⟨Nat.le_refl i, s, by simp, rfl, by simp [hsk]⟩

lemma deployAux_skip_reached (se : Bool) :
    ∀ (l : List Step) (k i : Nat) (s : Step),
      l.get? k = some s → (s.canSkip && s.checkCompleted) = true →
      (∀ j, j < k → ∀ p, l.get? j = some p →
        ((p.canSkip && p.checkCompleted) = true ∨ p.exec = PyResult.ok true)) →
      Event.mk (i + k) s.name Outcome.skipped ∈ (deployAux se l i).snd := by
  intro l
  induction l with
  | nil => intro k i s hget; simp at hget
  | cons p rest ih =>
    intro k i s hget hsk hprev
    cases k with
    | zero =>
      rw [List.get?_cons_zero] at hget
      have hps : p = s := Option.some.inj hget
      subst hps
      simp only [deployAux, hsk, if_true, Nat.add_zero]
      exact List.mem_cons_self _ _
    | succ m =>
      have hp0 := hprev 0 (Nat.succ_pos m) p (by simp)
      have hprev' : ∀ j, j < m → ∀ q, rest.get? j = some q →
          ((q.canSkip && q.checkCompleted) = true ∨ q.exec = PyResult.ok true) := by
        intro j hj q hq
        exact hprev (j + 1) (by omega) q (by simpa using hq)
      have hget' : rest.get? m = some s := by simpa using hget
      have hmem := ih m (i + 1) s hget' hsk hprev'
      have harith : i + 1 + m = i + (m + 1) := by omega
      rw [harith] at hmem
      rcases hp0 with hp | hp
      · simp only [deployAux, hp, if_true]
        exact List.mem_cons_of_mem _ hmem
      · by_cases hps : (p.canSkip && p.checkCompleted) = true
        · simp only [deployAux, hps, if_true]
          exact List.mem_cons_of_mem _ hmem
        · rw [Bool.not_eq_true] at hps
          simp only [deployAux, hps, Bool.false_eq_true, if_false, hp]
          exact List.mem_cons_of_mem _ hmem

/-- C2: in `DeploymentOrchestrator.deploy`, a step whose `can_skip` flag is
set and whose `check_completed()` returns true is recorded as skipped and
its `execute()` is never invoked: any trace entry at that step's index is a
`skipped` entry (an outcome that does not invoke `execute`), and if the
loop reaches the step (every earlier step is skipped or succeeds) the
skipped entry for it is in the trace. -/
theorem C2_skip_never_executes (steps : List Step) (summaryExn : Bool) (k : Nat) (s : Step)
    (hget : steps.get? k = some s) (hskip : s.canSkip = true) (hcc : s.checkCompleted = true) :
    (∀ e ∈ (deployRun summaryExn steps).snd, e.idx = k →
      e.out = Outcome.skipped ∧ Outcome.invokesExec e.out = false) ∧
    ((∀ j, j < k → ∀ p, steps.get? j = some p →
        ((p.canSkip && p.checkCompleted) = true ∨ p.exec = PyResult.ok true)) →
      Event.mk k s.name Outcome.skipped ∈ (deployRun summaryExn steps).snd) := by
  constructor
  · intro e he hidx
    obtain ⟨-, s', hget', -, hout⟩ := deployAux_mem summaryExn steps 0 e he
    rw [Nat.sub_zero, hidx, hget] at hget'
    have hss : s = s' := Option.some.inj hget'
    have : e.out = Outcome.skipped := hout.mpr (by rw [← hss, hskip, hcc]; rfl)
    exact ⟨this, by rw [this]; rfl⟩
  · intro hprev
    have h := deployAux_skip_reached summaryExn steps k 0 s hget
      (by rw [hskip, hcc]; rfl) hprev
    simpa using h

/-- Witness for `C2_skip_never_executes`: a completed, skippable
certificate step at index 0. -/
theorem C2_skip_never_executes_witness :
    (∀ e ∈ (deployRun false [Step.mk "certificate_management" true true true
        (PyResult.ok true)]).snd, e.idx = 0 →
      e.out = Outcome.skipped ∧ Outcome.invokesExec e.out = false) ∧
    ((∀ j, j < 0 → ∀ p, [Step.mk "certificate_management" true true true
        (PyResult.ok true)].get? j = some p →
        ((p.canSkip && p.checkCompleted) = true ∨ p.exec = PyResult.ok true)) →
      Event.mk 0 "certificate_management" Outcome.skipped ∈
        (deployRun false [Step.mk "certificate_management" true true true
          (PyResult.ok true)]).snd) :=
  C2_skip_never_executes
    [Step.mk "certificate_management" true true true (PyResult.ok true)]
    false 0 (Step.mk "certificate_management" true true true (PyResult.ok true))
    rfl rfl rfl

/-! ### Helper lemmas about the backup vault -/

lemma evictWhile_of_lt (maxB : Nat) :
    ∀ (l : List BackupRec), l.length < maxB → evictWhile maxB l = l := by
  intro l hl
  cases l with
  | nil => rfl
  | cons x xs =>
    simp only [List.length_cons] at hl
    simp [evictWhile, Nat.not_le.mpr hl]

lemma evictWhile_of_len_eq (maxB : Nat) (h0 : 0 < maxB) :
    ∀ (l : List BackupRec), l.length = maxB → evictWhile maxB l = l.tail := by
  intro l hl
  cases l with
  | nil => simp at hl; omega
  | cons x xs =>
    simp only [List.length_cons] at hl
    have hc : maxB ≤ xs.length + 1 := by omega
    have hlt : xs.length < maxB := by omega
    simp [evictWhile, hc, evictWhile_of_lt maxB xs hlt]

lemma createBackup_fst (maxB t : Nat) (p v : Bool) (vault : List BackupRec) :
    (createBackup maxB p v t vault).fst =
      evictWhile maxB vault ++ [BackupRec.mk t p (p && v)] := by
  cases p <;> simp [createBackup]

lemma runBackups_eq (maxB : Nat) (h0 : 0 < maxB) (present valid : Nat → Bool) :
    ∀ n, runBackups maxB present valid n =
      ((List.range n).drop (n - maxB)).map
        (fun i => BackupRec.mk i (present i) (present i && valid i)) := by
  intro n
  induction n with
  | zero => simp [runBackups]
  | succ m ih =>
    have hstep : runBackups maxB present valid (m + 1) =
        (createBackup maxB (present m) (valid m) m (runBackups maxB present valid m)).fst := by
      simp [runBackups, List.range_succ]
    rw [hstep, ih, createBackup_fst]
    by_cases hcase : m < maxB
    · have h1 : m - maxB = 0 := by omega
      have h2 : m + 1 - maxB = 0 := by omega
      have hlen : (((List.range m).drop (m - maxB)).map
          (fun i => BackupRec.mk i (present i) (present i && valid i))).length < maxB := by
        simp only [List.length_map, List.length_drop, List.length_range]
        omega
      rw [evictWhile_of_lt maxB _ hlen, h1, h2]
      simp [List.range_succ]
    · have hmle : maxB ≤ m := by omega
      have hlen : (((List.range m).drop (m - maxB)).map
          (fun i => BackupRec.mk i (present i) (present i && valid i))).length = maxB := by
        simp only [List.length_map, List.length_drop, List.length_range]
        omega
      rw [evictWhile_of_len_eq maxB h0 _ hlen, ← List.map_tail, List.tail_drop]
      have h3 : m - maxB + 1 = m + 1 - maxB := by omega
      have h4 : m + 1 - maxB ≤ (List.range m).length := by simp; omega
      rw [h3, List.range_succ, List.drop_append_of_le_length h4]
      simp

/-- C3: backup rotation in `_manage_backups`.  Starting from an empty
namespace and calling `createBackup` `n` times with strictly increasing
timestamps, retention cap `maxB` (default 5), and arbitrary per-call
source-file presence and validity: after every call at most `maxB`
records remain; the surviving records are exactly the most recent ones by
creation order (eviction is FIFO by age and never consults the recorded
validity — `valid` does not influence which timestamps survive); and once
`maxB ≤ n`, exactly `maxB` records remain. -/
theorem C3_backup_rotation (maxB n : Nat) (h0 : 0 < maxB) (present valid : Nat → Bool) :
    (runBackups maxB present valid n).length ≤ maxB ∧
    (runBackups maxB present valid n).map BackupRec.timestamp =
      (List.range n).drop (n - maxB) ∧
    (maxB ≤ n → (runBackups maxB present valid n).length = maxB) := by
  rw [runBackups_eq maxB h0 present valid n]
  refine ⟨?_, ?_, ?_⟩
  · simp only [List.length_map, List.length_drop, List.length_range]
    omega
  · have hcomp : (BackupRec.timestamp ∘ fun i =>
        BackupRec.mk i (present i) (present i && valid i)) = id := rfl
    simp [List.map_map, hcomp]
  · intro hle
    simp only [List.length_map, List.length_drop, List.length_range]
    omega

/-- Witness for `C3_backup_rotation`: cap 2, five calls with alternating
validity. -/
theorem C3_backup_rotation_witness :
    (runBackups 2 (fun _ => true) (fun i => decide (i % 2 = 0)) 5).length ≤ 2 ∧
    (runBackups 2 (fun _ => true) (fun i => decide (i % 2 = 0)) 5).map BackupRec.timestamp =
      (List.range 5).drop (5 - 2) ∧
    (2 ≤ 5 → (runBackups 2 (fun _ => true) (fun i => decide (i % 2 = 0)) 5).length = 2) :=
  C3_backup_rotation 2 5 (by decide) (fun _ => true) (fun i => decide (i % 2 = 0))

/-- C4: the function `_restore_backup` with no caller-supplied record (restore-latest):
if the namespace holds no record, or the most recent record fails
certificate validation at restore time, the call returns `False` and
performs no writes to the target paths. -/
theorem C4_restore_latest_guard (validNow : BackupRec → Bool) (vault : List BackupRec)
    (h : vault.getLast?.all (fun r => !(validNow r)) = true) :
    restoreBackup validNow none vault = (false, []) := by
  cases hl : vault.getLast? with
  | none => simp [restoreBackup, hl]
  | some r =>
    rw [hl] at h
    have hr : validNow r = false := by
      simpa using h
    simp [restoreBackup, hl, hr]

/-- Witness for `C4_restore_latest_guard`: a namespace whose only (hence
latest) record is invalid. -/
theorem C4_restore_latest_guard_witness :
    restoreBackup (fun r => r.isValid) none [BackupRec.mk 1 true false] = (false, []) :=
  C4_restore_latest_guard (fun r => r.isValid) [BackupRec.mk 1 true false] (by decide)

/-- C9 counterexample to the claim as stated: asking `_restore_backup` for
the specific record with timestamp 3 when that record no longer exists in
the namespace silently substitutes the most recent record (timestamp 5):
the restore succeeds and its writes come from record 5, not record 3. -/
theorem C9_counterexample :
    (restoreBackup (fun r => r.isValid) (some 3) [BackupRec.mk 5 true true]).fst = true ∧
    (restoreBackup (fun r => r.isValid) (some 3) [BackupRec.mk 5 true true]).snd =
      [RestoreWrite.mk 5] ∧
    RestoreWrite.mk 3 ∉
      (restoreBackup (fun r => r.isValid) (some 3) [BackupRec.mk 5 true true]).snd := by
  decide

/-- C9 (amended): when the caller-identified record is still present in
the namespace, `_restore_backup` restores from exactly that record (all
writes carry its timestamp, and success is exactly that record's
validation verdict); when the named record is absent, the code falls back
to the restore-latest behaviour, substituting the most recent record. -/
theorem C9_restore_specific_or_fallback (validNow : BackupRec → Bool) (t : Nat)
    (vault : List BackupRec) :
    restoreBackup validNow (some t) vault =
      match vault.find? (fun r => r.timestamp == t) with
      | some r => (validNow r, if validNow r then [RestoreWrite.mk t] else [])
      | none => restoreBackup validNow none vault := by
  cases hf : vault.find? (fun r => r.timestamp == t) with
  | none => simp [restoreBackup, hf]
  | some r =>
    have ht : r.timestamp = t := by
      have h2 := List.find?_some hf
      simpa using h2
    cases hv : validNow r <;> simp [restoreBackup, hf, hv, ht]

/-- C5: the function `_validate_certificate` runs its checks in the fixed order
parse, expiry, SAN domain match, key/certificate pairing, and the first
failing check short-circuits and supplies the returned reason.  Under the
hypotheses that the expiry check passes and no constraint domain occurs
in the SAN list, the artifact is rejected with the domain-mismatch reason
(whatever the key-pairing state is), and that reason contains the text
"domains don't match".  The remaining conjuncts fix the other three
stages: parse failure wins over everything, expiry failure wins over SAN
and key state, key-pairing failure is reported only when parse, expiry
and SAN all pass, and validation succeeds when every check passes. -/
theorem C5_validation_order (c : ParsedCert) (domains : List String) (minD now : Int)
    (hexp : minD < c.expiryDay - now)
    (hsan : (domains.any fun d => c.sanDomains.contains d) = false) :
    validateCertificate (Except.ok c) domains minD now =
      (false, some "Certificate domains don\x27t match configuration", some c.expiryDay) ∧
    containsSub "domains don\x27t match".data
      "Certificate domains don\x27t match configuration".data = true ∧
    (∀ (e : String) (ds : List String) (m n : Int),
      validateCertificate (Except.error e) ds m n =
        (false, some (String.append "Certificate validation failed: " e), none)) ∧
    (∀ (c2 : ParsedCert) (ds : List String) (m n : Int), c2.expiryDay - n ≤ m →
      validateCertificate (Except.ok c2) ds m n =
        (false, some (String.append "Certificate expires in less than "
          (String.append (toString m) " days")), some c2.expiryDay)) ∧
    (∀ (c2 : ParsedCert) (ds : List String) (m n : Int) (e : String), m < c2.expiryDay - n →
      (ds.any fun d => c2.sanDomains.contains d) = true → c2.keyCheck = some e →
      validateCertificate (Except.ok c2) ds m n =
        (false, some (String.append "Private key validation failed: " e), some c2.expiryDay)) ∧
    (∀ (c2 : ParsedCert) (ds : List String) (m n : Int), m < c2.expiryDay - n →
      (ds.any fun d => c2.sanDomains.contains d) = true → c2.keyCheck = none →
      validateCertificate (Except.ok c2) ds m n = (true, none, some c2.expiryDay)) := by
  refine ⟨?_, ?_, ?_, ?_, ?_, ?_⟩
  · simp only [validateCertificate]
    rw [if_neg (not_le.mpr hexp), if_pos (by rw [hsan]; rfl)]
  · decide
  · intro e ds m n; rfl
  · intro c2 ds m n h
    simp only [validateCertificate]
    rw [if_pos h]
  · intro c2 ds m n e h hs hk
    simp only [validateCertificate]
    rw [if_neg (not_le.mpr h), if_neg (by rw [hs]; simp), hk]
  · intro c2 ds m n h hs hk
    simp only [validateCertificate]
    rw [if_neg (not_le.mpr h), if_neg (by rw [hs]; simp), hk]

/-- Witness for `C5_validation_order`: a certificate that expires in 100
days with SAN `other.com`, validated against constraint domain
`example.com` with a 30-day minimum at day 0: expiry and key pairing
would pass, yet the artifact is rejected for the domain mismatch. -/
theorem C5_validation_order_witness :
    validateCertificate (Except.ok (ParsedCert.mk 100 ["other.com"] none))
        ["example.com"] 30 0 =
      (false, some "Certificate domains don\x27t match configuration", some (100 : Int)) ∧
    containsSub "domains don\x27t match".data
      "Certificate domains don\x27t match configuration".data = true ∧
    (∀ (e : String) (ds : List String) (m n : Int),
      validateCertificate (Except.error e) ds m n =
        (false, some (String.append "Certificate validation failed: " e), none)) ∧
    (∀ (c2 : ParsedCert) (ds : List String) (m n : Int), c2.expiryDay - n ≤ m →
      validateCertificate (Except.ok c2) ds m n =
        (false, some (String.append "Certificate expires in less than "
          (String.append (toString m) " days")), some c2.expiryDay)) ∧
    (∀ (c2 : ParsedCert) (ds : List String) (m n : Int) (e : String), m < c2.expiryDay - n →
      (ds.any fun d => c2.sanDomains.contains d) = true → c2.keyCheck = some e →
      validateCertificate (Except.ok c2) ds m n =
        (false, some (String.append "Private key validation failed: " e), some c2.expiryDay)) ∧
    (∀ (c2 : ParsedCert) (ds : List String) (m n : Int), m < c2.expiryDay - n →
      (ds.any fun d => c2.sanDomains.contains d) = true → c2.keyCheck = none →
      validateCertificate (Except.ok c2) ds m n = (true, none, some c2.expiryDay)) :=
  C5_validation_order (ParsedCert.mk 100 ["other.com"] none) ["example.com"] 30 0
    (by decide) (by decide)

/-- C6: the probe `check_completed` returns true exactly when the certificate and
key files are present, `_validate_certificate` reports valid, and chain
verification reports valid; in particular mere file presence with a
failing content or chain check never yields true. -/
theorem C6_check_completed_gates (certFileExists keyFileExists : Bool)
    (artifact : Except String ParsedCert) (domains : List String)
    (minD now : Int) (chainValid : Bool) :
    certCheckCompleted certFileExists keyFileExists artifact domains minD now chainValid
        = true ↔
      certFileExists = true ∧ keyFileExists = true ∧
      (validateCertificate artifact domains minD now).fst = true ∧ chainValid = true := by
  unfold certCheckCompleted
  cases certFileExists <;> cases keyFileExists <;> cases chainValid <;>
    cases hv : (validateCertificate artifact domains minD now).fst <;> simp [hv]

/-- C8 counterexample to the claim as stated: the function `_validate_certificate`
consults `datetime.now()`, so it is not a function of the artifact bytes
plus the constraints alone: the same unmodified artifact (expiry day 100,
matching SAN, matching key) with the same constraints (min 30 days valid)
validates as valid at day 0 but invalid at day 80. -/
theorem C8_counterexample :
    validateCertificate (Except.ok (ParsedCert.mk 100 ["example.com"] none))
        ["example.com"] 30 0 ≠
      validateCertificate (Except.ok (ParsedCert.mk 100 ["example.com"] none))
        ["example.com"] 30 80 := by
  decide

/-- C8 (amended): validation is a deterministic, pure function of the
artifact bytes, the constraints, and the current clock reading; two calls
on the same unmodified artifact with the same constraints yield identical
`ValidationResult`s whenever the two clock readings fall on the same side
of the expiry threshold (in particular whenever no time passes between
the calls). -/
theorem C8_validation_deterministic (artifact : Except String ParsedCert)
    (domains : List String) (minD t1 t2 : Int)
    (h : ∀ c : ParsedCert, artifact = Except.ok c →
      ((c.expiryDay - t1 ≤ minD) ↔ (c.expiryDay - t2 ≤ minD))) :
    validateCertificate artifact domains minD t1 =
      validateCertificate artifact domains minD t2 := by
  cases artifact with
  | error e => rfl
  | ok c =>
    have hiff := h c rfl
    by_cases hc : c.expiryDay - t1 ≤ minD
    · simp [validateCertificate, hc, hiff.mp hc]
    · have hc2 : ¬(c.expiryDay - t2 ≤ minD) := fun h2 => hc (hiff.mpr h2)
      simp [validateCertificate, hc, hc2]

/-- Witness for `C8_validation_deterministic`: two calls five days apart,
both well clear of the expiry threshold, agree. -/
theorem C8_validation_deterministic_witness :
    validateCertificate (Except.ok (ParsedCert.mk 100 ["example.com"] none))
        ["example.com"] 30 0 =
      validateCertificate (Except.ok (ParsedCert.mk 100 ["example.com"] none))
        ["example.com"] 30 5 :=
  C8_validation_deterministic (Except.ok (ParsedCert.mk 100 ["example.com"] none))
    ["example.com"] 30 0 5 (fun c hc => by cases hc; decide)

lemma evictWhile_sublist_mem (maxB : Nat) :
    ∀ (l : List BackupRec) (r : BackupRec), r ∈ evictWhile maxB l → r ∈ l := by
  intro l
  induction l with
  | nil => intro r h; simp [evictWhile] at h
  | cons x xs ih =>
    intro r h
    by_cases hc : maxB ≤ xs.length + 1
    · rw [evictWhile, if_pos hc] at h
      exact List.mem_cons_of_mem _ (ih r h)
    · rw [evictWhile, if_neg hc] at h
      exact h

/-- C7: when `execute`'s issuance command fails but the pre-change backup
taken by `_manage_backups` at the start of that same `execute` exists
(source files were present; its fresh timestamp collides with no earlier
record) and its recorded snapshot passes validation at restore time, the
step restores exactly that backup and reports overall success — so in a
pipeline [A, CertificateIssue, C] with A succeeding, the step after the
certificate step is still attempted. -/
theorem C7_issuance_failure_restores_and_succeeds
    (maxB : Nat) (validNow : BackupRec → Bool) (vault : List BackupRec) (w : CertWorld)
    (hnc : w.alreadyCompleted = false)
    (hinst : w.certbotInstallOk = true)
    (hiss : w.issuanceOk = false)
    (hsrc : w.sourcePresent = true)
    (hfresh : ∀ r ∈ vault, r.timestamp ≠ w.backupTimestamp)
    (hval : validNow (BackupRec.mk w.backupTimestamp true w.sourceValid) = true) :
    certExecute maxB validNow vault w = (true, [RestoreWrite.mk w.backupTimestamp]) ∧
    (∀ a c : Step, a.exec = PyResult.ok true →
      2 ∈ (coreExec [a,
        Step.mk "certificate_management" true false false
          (PyResult.ok (certExecute maxB validNow vault w).fst), c]).snd.map Event.idx) := by
  have hb : createBackup maxB w.sourcePresent w.sourceValid w.backupTimestamp vault =
      (evictWhile maxB vault ++ [BackupRec.mk w.backupTimestamp true w.sourceValid],
        some w.backupTimestamp) := by
    rw [hsrc]; rfl
  have h1 : (evictWhile maxB vault).find?
      (fun r => r.timestamp == w.backupTimestamp) = none := by
    rw [List.find?_eq_none]
    intro x hx
    simp [hfresh x (evictWhile_sublist_mem maxB vault x hx)]
  have hfind : (evictWhile maxB vault ++
      [BackupRec.mk w.backupTimestamp true w.sourceValid]).find?
      (fun r => r.timestamp == w.backupTimestamp) =
      some (BackupRec.mk w.backupTimestamp true w.sourceValid) := by
    rw [List.find?_append, h1]
    simp
  have hrestore : restoreBackup validNow (some w.backupTimestamp)
      (evictWhile maxB vault ++ [BackupRec.mk w.backupTimestamp true w.sourceValid]) =
      (true, [RestoreWrite.mk w.backupTimestamp]) := by
    simp [restoreBackup, hfind, hval]
  have hmain : certExecute maxB validNow vault w =
      (true, [RestoreWrite.mk w.backupTimestamp]) := by
    simp only [certExecute, hnc, hinst, hiss, hb]
    simp [hrestore]
  refine ⟨hmain, ?_⟩
  intro a c ha
  have hfst : (certExecute maxB validNow vault w).fst = true := by rw [hmain]
  cases hc : c.exec with
  | ok b => cases b <;> simp [coreExec, coreExecAux, ha, hfst, hc]
  | exn => simp [coreExec, coreExecAux, ha, hfst, hc]

/-- Witness for `C7_issuance_failure_restores_and_succeeds`: empty vault,
source files present, valid snapshot at timestamp 7, issuance fails. -/
theorem C7_issuance_failure_restores_and_succeeds_witness :
    certExecute 5 (fun r => r.isValid) []
        (CertWorld.mk false true true 7 true false true true) =
      (true, [RestoreWrite.mk 7]) ∧
    (∀ a c : Step, a.exec = PyResult.ok true →
      2 ∈ (coreExec [a,
        Step.mk "certificate_management" true false false
          (PyResult.ok (certExecute 5 (fun r => r.isValid) []
            (CertWorld.mk false true true 7 true false true true)).fst), c]).snd.map
              Event.idx) :=
  C7_issuance_failure_restores_and_succeeds 5 (fun r => r.isValid) []
    (CertWorld.mk false true true 7 true false true true)
    rfl rfl rfl rfl (by simp) rfl

/-- C10: when the live certificate or key file is absent at backup time,
`_manage_backups` still creates the new (empty) timestamp record in the
namespace listing — so it participates in later rotations — but returns
`None`; consequently a later issuance failure inside the same `execute`
attempts no restore (no writes) and the step reports plain failure. -/
theorem C10_missing_source_backup (maxB : Nat) (validNow : BackupRec → Bool)
    (vault : List BackupRec) (w : CertWorld)
    (hsrc : w.sourcePresent = false)
    (hnc : w.alreadyCompleted = false)
    (hinst : w.certbotInstallOk = true)
    (hiss : w.issuanceOk = false) :
    (createBackup maxB w.sourcePresent w.sourceValid w.backupTimestamp vault).snd = none ∧
    (createBackup maxB w.sourcePresent w.sourceValid w.backupTimestamp vault).fst =
      evictWhile maxB vault ++ [BackupRec.mk w.backupTimestamp false false] ∧
    certExecute maxB validNow vault w = (false, []) := by
  have hb : createBackup maxB w.sourcePresent w.sourceValid w.backupTimestamp vault =
      (evictWhile maxB vault ++ [BackupRec.mk w.backupTimestamp false false], none) := by
    rw [hsrc]; rfl
  refine ⟨by rw [hb], by rw [hb], ?_⟩
  simp only [certExecute, hnc, hinst, hiss, hb]
  simp

/-- Witness for `C10_missing_source_backup`: empty vault, missing source
files, issuance fails at timestamp 7. -/
theorem C10_missing_source_backup_witness :
    (createBackup 5 (CertWorld.mk false false true 7 true false true true).sourcePresent
      (CertWorld.mk false false true 7 true false true true).sourceValid
      (CertWorld.mk false false true 7 true false true true).backupTimestamp []).snd = none ∧
    (createBackup 5 (CertWorld.mk false false true 7 true false true true).sourcePresent
      (CertWorld.mk false false true 7 true false true true).sourceValid
      (CertWorld.mk false false true 7 true false true true).backupTimestamp []).fst =
      evictWhile 5 [] ++ [BackupRec.mk 7 false false] ∧
    certExecute 5 (fun r => r.isValid) []
        (CertWorld.mk false false true 7 true false true true) = (false, []) :=
  C10_missing_source_backup 5 (fun r => r.isValid) []
    (CertWorld.mk false false true 7 true false true true)
    rfl rfl rfl rfl

end KeycloakManagement
